import Mathlib

/-!
Verification of the rboot UEFI boot loader (rcore-os/rboot) against its
natural-language specification.  The Rust sources `src/page_table.rs`,
`src/main.rs`, `src/config.rs` and `src/lib.rs` are shallowly embedded
below: physical memory is a function from addresses to bytes, the 4 KiB
page table is a partial map from virtual page index to (frame index,
flags), machine integers are naturals, and fallible operations return
`Except`.
-/

deriving instance DecidableEq for Except

namespace RBoot

/-- 4 KiB page size used throughout `page_table.rs` (`0x1000`). -/
def PS : Nat := 0x1000

/-- 2 MiB page size used by `map_physical_memory` (`Mapper<Size2MiB>`). -/
def PS2M : Nat := 0x200000

/-! ### Page table flags (x86_64 and aarch64 variants) -/

/-- x86_64 `PageTableFlags::PRESENT` (bit 0). -/
def PRESENT : Nat := 1

/-- x86_64 `PageTableFlags::WRITABLE` (bit 1). -/
def WRITABLE : Nat := 2

/-- x86_64 `PageTableFlags::NO_EXECUTE` (bit 63). -/
def NO_EXECUTE : Nat := 2 ^ 63

/-- aarch64 `PageTableFlags::VALID` (bit 0). -/
def VALID : Nat := 1

/-- aarch64 `PageTableFlags::AP_RO` (access-permission read-only, bit 7). -/
def AP_RO : Nat := 2 ^ 7

/-- aarch64 `PageTableFlags::PXN` (privileged execute-never, bit 53). -/
def PXN : Nat := 2 ^ 53

/-- `default_ptf()` for `target_arch = "x86_64"`: `PRESENT | WRITABLE`. -/
def default_ptf_x86 : Nat := PRESENT ||| WRITABLE

/-- `default_ptf()` for `target_arch = "aarch64"`: `VALID | PXN`. -/
def default_ptf_aarch64 : Nat := VALID ||| PXN

/-- `trans_flags` for x86_64: start from `PRESENT`, add `NO_EXECUTE` when the
segment lacks the execute permission, add `WRITABLE` when it has write. -/
def trans_flags_x86 (isWrite isExecute : Bool) : Nat :=
  let f := PRESENT
  let f := if !isExecute then f ||| NO_EXECUTE else f
  if isWrite then f ||| WRITABLE else f

/-- `trans_flags` for aarch64: start from `VALID`, add `PXN` when the segment
lacks execute, add `AP_RO` when it lacks write. -/
def trans_flags_aarch64 (isWrite isExecute : Bool) : Nat :=
  let f := VALID
  let f := if !isExecute then f ||| PXN else f
  if !isWrite then f ||| AP_RO else f

/-! ### ELF program headers -/

/-- `xmas_elf::program::Type`, restricted to what `map_segment` inspects. -/
inductive SegType where
  | load
  | other
deriving DecidableEq, Repr

/-- A loadable-segment descriptor: the fields of `program::ProgramHeader`
read by `map_segment` (`get_type`, `flags`, `offset`, `virtual_addr`,
`file_size`, `mem_size`). -/
structure Segment where
  segType : SegType
  isWrite : Bool
  isExecute : Bool
  offset : Nat
  virtualAddr : Nat
  fileSize : Nat
  memSize : Nat
deriving Repr

/-! ### Machine state: physical memory and a flat 4 KiB page table -/

/-- Physical byte memory together with the 4 KiB page table.  `pt p` is the
(frame index, flags) entry for virtual page index `p`, or `none` when the
page is unmapped. -/
structure MachineState where
  mem : Nat → Nat
  pt : Nat → Option (Nat × Nat)

/-- Errors of `Mapper::map_to` plus the outcomes `map_segment` itself
produces: a `panicked` result models reaching one of the `unreachable!()`
arms, and `pageFault` models a raw write through an unmapped virtual
address. -/
inductive MapErr where
  | frameAllocationFailed
  | pageAlreadyMapped
  | parentEntryHugePage
  | panicked
  | pageFault
deriving DecidableEq, Repr

/-- `UnmapError` of `Mapper::unmap`. -/
inductive UnmapErr where
  | parentEntryHugePage
  | pageNotMapped
  | invalidFrameAddress
deriving DecidableEq, Repr

/-- `map_to`: install `page ↦ (frame, flags)`, failing if the page is
already mapped. -/
def mapTo (st : MachineState) (page frame flags : Nat) :
    Except MapErr MachineState :=
  match st.pt page with
  | some _ => .error .pageAlreadyMapped
  | none =>
      .ok { st with pt := fun p => if p = page then some (frame, flags) else st.pt p }

/-- `Mapper::unmap`: remove the entry for `page`; `PageNotMapped` when
absent. -/
def unmapPage (st : MachineState) (page : Nat) :
    Except UnmapErr MachineState :=
  match st.pt page with
  | none => .error .pageNotMapped
  | some _ => .ok { st with pt := fun p => if p = page then none else st.pt p }

/-- Translate a virtual byte address through the page table. -/
def transAddr (pt : Nat → Option (Nat × Nat)) (v : Nat) : Option Nat :=
  match pt (v / PS) with
  | none => none
  | some (f, _) => some (f * PS + v % PS)

/-- Read the byte at virtual address `v` (`none` when unmapped). -/
def readVirt (st : MachineState) (v : Nat) : Option Nat :=
  match st.pt (v / PS) with
  | none => none
  | some (f, _) => some (st.mem (f * PS + v % PS))

/-- Write byte `b` at virtual address `v`; an unmapped page is a fault. -/
def writeVirt (st : MachineState) (v b : Nat) : Except MapErr MachineState :=
  match st.pt (v / PS) with
  | none => .error .pageFault
  | some (f, _) =>
      .ok { st with
        mem := fun a => if a = f * PS + v % PS then b else st.mem a }

/-- `core::ptr::write_bytes(zero_start, 0, n)`: zero `n` consecutive virtual
bytes starting at `v`. -/
def zeroVirtRange (st : MachineState) (v n : Nat) : Except MapErr MachineState :=
  match n with
  | 0 => .ok st
  | n + 1 =>
      match writeVirt st v 0 with
      | .error e => .error e
      | .ok st' => zeroVirtRange st' (v + 1) n

/-- `temp_page_ptr.write(last_page_ptr.read())`: copy the 4 KiB frame `src`
over the frame `dst`. -/
def copyFrame (st : MachineState) (src dst : Nat) : MachineState :=
  { st with
    mem := fun a =>
      if dst * PS ≤ a ∧ a < dst * PS + PS then st.mem (src * PS + (a - dst * PS))
      else st.mem a }

/-- The loop `for frame in PhysFrame::range_inclusive(start_frame, end_frame)`
of `map_segment`, indexed by the number `n` of frames left: map
`page + k ↦ frame + k` for `k < n`. -/
def mapFrameRange (st : MachineState) (page frame flags n : Nat) :
    Except MapErr MachineState :=
  match n with
  | 0 => .ok st
  | n + 1 =>
      match mapTo st page frame flags with
      | .error e => .error e
      | .ok st' => mapFrameRange st' (page + 1) (frame + 1) flags n

/-- The loop `for page in Page::range_inclusive(start_page, end_page)` of the
zero-fill part of `map_segment`: allocate one fresh frame per page and map
it.  The frame allocator is a list of frame indices handed out in order;
an empty list is exhaustion. -/
def mapZeroPages (st : MachineState) (alloc : List Nat) (page flags n : Nat) :
    Except MapErr (MachineState × List Nat) :=
  match n with
  | 0 => .ok (st, alloc)
  | n + 1 =>
      match alloc with
      | [] => .error .frameAllocationFailed
      | f :: rest =>
          match mapTo st page f flags with
          | .error e => .error e
          | .ok st' => mapZeroPages st' rest (page + 1) flags n

/-- `x86_64::align_up` for the power-of-two alignment used here. -/
def align_up (addr align : Nat) : Nat := (addr + align - 1) / align * align

/-- The shared-page block of `map_segment` (`page_table.rs` lines 121-159):
allocate a fresh frame, copy the whole last file-backed frame (`end_frame`)
into it, unmap the page containing the last file byte (mapping the
`PageNotMapped` / `InvalidFrameAddress` arms, which the code marks
`unreachable!()`, to `panicked`) and remap it to the fresh frame with the
segment's flags. -/
def mapSegmentShared (st1 : MachineState) (alloc : List Nat)
    (endFrame lastPage flags : Nat) : Except MapErr (MachineState × List Nat) :=
  match alloc with
  | [] => .error .frameAllocationFailed
  | newFrame :: rest =>
    let st2 := copyFrame st1 endFrame newFrame
    match unmapPage st2 lastPage with
    | .error .parentEntryHugePage => .error .parentEntryHugePage
    | .error _ => .error .panicked
    | .ok st3 =>
      match mapTo st3 lastPage newFrame flags with
      | .error e => .error e
      | .ok st4 => .ok (st4, rest)

/-- The `mem_size > file_size` block of `map_segment` (`page_table.rs`
lines 117-182): run the shared-page block when the zero-fill start is not
page-aligned, map fresh frames for every remaining page up to the page
containing `zero_end`, then zero `[zero_start, zero_end)` through the
virtual mappings (`write_bytes`). -/
def mapSegmentZeroFill (st1 : MachineState) (alloc : List Nat)
    (virtStart fileSize memSize endFrame flags : Nat) :
    Except MapErr (MachineState × List Nat) :=
  let zeroStart := virtStart + fileSize
  let zeroEnd := virtStart + memSize
  let shared : Except MapErr (MachineState × List Nat) :=
    if zeroStart % PS ≠ 0 then
      mapSegmentShared st1 alloc endFrame ((virtStart + fileSize - 1) / PS) flags
    else .ok (st1, alloc)
  match shared with
  | .error e => .error e
  | .ok (st4, alloc4) =>
    let startPage2 := align_up zeroStart PS / PS
    let endPage2 := zeroEnd / PS
    match mapZeroPages st4 alloc4 startPage2 flags (endPage2 + 1 - startPage2) with
    | .error e => .error e
    | .ok (st5, alloc5) =>
      match zeroVirtRange st5 zeroStart (memSize - fileSize) with
      | .error e => .error e
      | .ok st6 => .ok (st6, alloc5)

/-- `map_segment` from `page_table.rs` (x86_64 build): non-`Load` segments
are skipped; otherwise the file-backed frames of the segment are mapped
directly onto the in-memory image buffer at `kernelStart`
(`phys_start = kernel_start + (offset & !0xfff)`), and the zero-fill tail
is handled when `mem_size > file_size`. -/
def map_segment (seg : Segment) (kernelStart : Nat) (st : MachineState)
    (alloc : List Nat) : Except MapErr (MachineState × List Nat) :=
  if seg.segType = .load then
    let memSize := seg.memSize
    let fileSize := seg.fileSize
    let fileOffset := seg.offset - seg.offset % PS
    let physStart := kernelStart + fileOffset
    let virtStart := seg.virtualAddr
    let startPage := virtStart / PS
    let startFrame := physStart / PS
    let endFrame := (physStart + fileSize - 1) / PS
    let flags := trans_flags_x86 seg.isWrite seg.isExecute
    match mapFrameRange st startPage startFrame flags (endFrame + 1 - startFrame) with
    | .error e => .error e
    | .ok st1 =>
      if memSize > fileSize then
        mapSegmentZeroFill st1 alloc virtStart fileSize memSize endFrame flags
      else .ok (st1, alloc)
  else .ok (st, alloc)

/-- `map_elf`: run `map_segment` over every program header, with
`kernel_start = elf.input.as_ptr()`. -/
def map_elf (segs : List Segment) (kernelStart : Nat) (st : MachineState)
    (alloc : List Nat) : Except MapErr (MachineState × List Nat) :=
  match segs with
  | [] => .ok (st, alloc)
  | seg :: rest =>
      match map_segment seg kernelStart st alloc with
      | .error e => .error e
      | .ok (st', alloc') => map_elf rest kernelStart st' alloc'

/-- The all-unmapped page table the segment-mapping theorems start from. -/
def emptyPT : Nat → Option (Nat × Nat) := fun _ => none

/-! ### `map_physical_memory` (2 MiB granularity) -/

/-- The loop of `map_physical_memory` over
`PhysFrame::range_inclusive(start_frame, end_frame)` at 2 MiB granularity,
indexed by the number `n` of frames left starting at `frame`: map the page
containing `frame * PS2M + offset` to `frame` with `flags`.  The 2 MiB
page table is its own flat map. -/
def mapPhysFrames (pt2 : Nat → Option (Nat × Nat)) (offset flags frame n : Nat) :
    Except MapErr (Nat → Option (Nat × Nat)) :=
  match n with
  | 0 => .ok pt2
  | n + 1 =>
      let page := (frame * PS2M + offset) / PS2M
      match pt2 page with
      | some _ => .error .pageAlreadyMapped
      | none =>
          mapPhysFrames (fun p => if p = page then some (frame, flags) else pt2 p)
            offset flags (frame + 1) n

/-- `map_physical_memory` (x86_64 build): map physical `[0, maxAddr)` to
virtual `[offset, offset + maxAddr)` with 2 MiB pages and `default_ptf()`.
The frame range is `range_inclusive(containing(0), containing(maxAddr))`,
hence `maxAddr / PS2M + 1` frames. -/
def map_physical_memory_x86 (offset maxAddr : Nat)
    (pt2 : Nat → Option (Nat × Nat)) : Except MapErr (Nat → Option (Nat × Nat)) :=
  mapPhysFrames pt2 offset default_ptf_x86 0 (maxAddr / PS2M + 1)

/-- `map_physical_memory` (aarch64 build): same loop with the aarch64
`default_ptf()`. -/
def map_physical_memory_aarch64 (offset maxAddr : Nat)
    (pt2 : Nat → Option (Nat × Nat)) : Except MapErr (Nat → Option (Nat × Nat)) :=
  mapPhysFrames pt2 offset default_ptf_aarch64 0 (maxAddr / PS2M + 1)

/-- Translate a virtual byte address through the 2 MiB page table. -/
def transAddr2M (pt2 : Nat → Option (Nat × Nat)) (v : Nat) : Option Nat :=
  match pt2 (v / PS2M) with
  | none => none
  | some (f, _) => some (f * PS2M + v % PS2M)

/-- The orchestrator's `max_phys_addr` computation in `efi_main`: the
maximum of `phys_start + page_count * 0x1000` over the firmware memory
regions, floored to `0x100000000`; `none` models the `unwrap` panic on an
empty memory map. -/
def maxPhysAddr (regions : List (Nat × Nat)) : Option Nat :=
  ((regions.map fun r => r.1 + r.2 * 0x1000).max?).map (fun m => m.max 0x100000000)

/-! ### Frame source (`UEFIFrameAllocator`) -/

/-- Outcome of the firmware call `BootServices::allocate_pages(AnyPages,
LOADER_DATA, 1)`. -/
inductive FwAllocResult where
  | success (addr : Nat)
  | outOfResources
deriving DecidableEq, Repr

/-- `UEFIFrameAllocator::allocate_frame`: `expect_success` panics when the
firmware allocator fails (modelled as `.error`), otherwise the frame
containing the returned address is wrapped in `some`.  It never produces
`.ok none`. -/
def uefi_allocate_frame (fw : FwAllocResult) : Except String (Option Nat) :=
  match fw with
  | .success addr => .ok (some (addr / PS))
  | .outOfResources => .error "failed to allocate frame"

/-! ### Boot orchestrator (`efi_main`) -/

/-- Observable events of one `efi_main` execution, in program order. -/
inductive BootEvent where
  | setEntry (v : Nat)
  | setPmo (v : Nat)
  | mapKernelElf
  | mapPhysMemory
  | startAps
  | exitBootServices
  | jumpToEntry (entry : Nat)
  | panicked (msg : String)
deriving DecidableEq, Repr

/-- The abstract inputs of one `efi_main` run: the parsed kernel image, the
physical location of the image buffer, the initial page-table/memory
state, the frame source, and whether `startup_all_aps` returned an error
(timeout included) — the normal case, since `ap_main` never returns. -/
structure BootInputs where
  entryPoint : Nat
  physicalMemoryOffset : Nat
  segments : List Segment
  kernelStart : Nat
  initialState : MachineState
  alloc : List Nat
  apStartupError : Bool

/-- The event trace of `efi_main` after the kernel ELF has been parsed:
the globals `ENTRY` and `PHYSICAL_MEMORY_OFFSET` are written, then
`map_elf` runs (`expect`ing success), then `map_physical_memory`, then
`start_aps` (whose `expect_error` panics when `startup_all_aps`
*succeeds*), then `exit_boot_services` and the non-returning jump. -/
def efi_main (inp : BootInputs) : List BootEvent :=
  let pre := [BootEvent.setEntry inp.entryPoint, BootEvent.setPmo inp.physicalMemoryOffset]
  match map_elf inp.segments inp.kernelStart inp.initialState inp.alloc with
  | .error _ => pre ++ [BootEvent.panicked "failed to map ELF"]
  | .ok _ =>
      let pre := pre ++ [BootEvent.mapKernelElf, BootEvent.mapPhysMemory, BootEvent.startAps]
      if inp.apStartupError then
        pre ++ [BootEvent.exitBootServices, BootEvent.jumpToEntry inp.entryPoint]
      else
        pre ++ [BootEvent.panicked "failed to startup all application processors"]

/-! ### Configuration parser (`config.rs`) -/

/-- `Config` from `config.rs`. -/
structure Config where
  kernel_stack_address : Nat
  kernel_stack_size : Nat
  physical_memory_offset : Nat
  kernel_path : String
  resolution : Option (Nat × Nat)
  initramfs : Option String
  cmdline : String
deriving DecidableEq, Repr

/-- `DEFAULT_CONFIG`. -/
def DEFAULT_CONFIG : Config :=
  { kernel_stack_address := 0xFFFFFF0100000000
    kernel_stack_size := 512
    physical_memory_offset := 0xFFFF800000000000
    kernel_path := "\\EFI\\rCore\\kernel.elf"
    resolution := none
    initramfs := none
    cmdline := "" }

/-- One digit in the given radix (`from_str_radix` digit set: `0-9a-zA-Z`
up to the radix). -/
def digitVal (radix : Nat) (c : Char) : Option Nat :=
  let v :=
    if '0' ≤ c ∧ c ≤ '9' then some (c.toNat - '0'.toNat)
    else if 'a' ≤ c ∧ c ≤ 'z' then some (c.toNat - 'a'.toNat + 10)
    else if 'A' ≤ c ∧ c ≤ 'Z' then some (c.toNat - 'A'.toNat + 10)
    else none
  match v with
  | some d => if d < radix then some d else none
  | none => none

/-- Digit-list accumulator for `parseU64Radix`. -/
def parseDigits (radix : Nat) (cs : List Char) (acc : Nat) : Option Nat :=
  match cs with
  | [] => some acc
  | c :: rest =>
      match digitVal radix c with
      | none => none
      | some d => parseDigits radix rest (acc * radix + d)

/-- Rust `u64::from_str` / `u64::from_str_radix`: an optional leading `+`,
then at least one digit in the radix; the value must fit in 64 bits. -/
def parseU64Radix (radix : Nat) (cs : List Char) : Option Nat :=
  let cs := match cs with
    | '+' :: rest => rest
    | _ => cs
  if cs.isEmpty then none
  else
    match parseDigits radix cs 0 with
    | none => none
    | some v => if v < 2 ^ 64 then some v else none

/-- Rust `str::split(sep)`: split into the (possibly empty) groups between
the separators; always yields at least one group. -/
def splitOnChar (sep : Char) : List Char → List (List Char)
  | [] => [[]]
  | c :: rest =>
      let r := splitOnChar sep rest
      if c = sep then [] :: r
      else
        match r with
        | [] => [[c]]
        | g :: gs => (c :: g) :: gs

/-- Rust `str::splitn(2, sep)` when the separator occurs: the text before the
first separator and everything after it; `none` when the separator is
absent (the `iter.next()` for the value would yield `None`). -/
def splitFirst (sep : Char) : List Char → Option (List Char × List Char)
  | [] => none
  | c :: rest =>
      if c = sep then some ([], rest)
      else
        match splitFirst sep rest with
        | none => none
        | some (a, b) => some (c :: a, b)

/-- Rust `str::trim`: drop whitespace from both ends. -/
def trimChars (cs : List Char) : List Char :=
  ((cs.dropWhile Char.isWhitespace).reverse.dropWhile Char.isWhitespace).reverse

/-- `Config::process`: handle one `key=value` line.  Recognized keys update
the corresponding field (panicking parses are `.error`); an unknown key
leaves the config unchanged and records a `warn!` message. -/
def Config.process (cfg : Config) (warnings : List String) (key value : List Char) :
    Except String (Config × List String) :=
  let r10 : Except String Nat :=
    match parseU64Radix 10 value with
    | none => .error "called Option::unwrap on a None value"
    | some v => .ok v
  let r16 : Except String Nat :=
    if value.length < 2 then .error "byte index out of bounds"
    else
      match parseU64Radix 16 (value.drop 2) with
      | none => .error "called Result::unwrap on an Err value"
      | some v => .ok v
  if key = "kernel_stack_address".data then
    match r16 with
    | .error e => .error e
    | .ok v => .ok ({ cfg with kernel_stack_address := v }, warnings)
  else if key = "kernel_stack_size".data then
    match r10 with
    | .error e => .error e
    | .ok v => .ok ({ cfg with kernel_stack_size := v }, warnings)
  else if key = "physical_memory_offset".data then
    match r16 with
    | .error e => .error e
    | .ok v => .ok ({ cfg with physical_memory_offset := v }, warnings)
  else if key = "kernel_path".data then .ok ({ cfg with kernel_path := ⟨value⟩ }, warnings)
  else if key = "resolution".data then
    match splitOnChar 'x' value with
    | [] => .error "called Option::unwrap on a None value"
    | [_] => .error "called Option::unwrap on a None value"
    | xs :: ys :: _ =>
        match parseU64Radix 10 xs, parseU64Radix 10 ys with
        | some x, some y => .ok ({ cfg with resolution := some (x, y) }, warnings)
        | _, _ => .error "called Result::unwrap on an Err value"
  else if key = "initramfs".data then .ok ({ cfg with initramfs := some ⟨value⟩ }, warnings)
  else if key = "cmdline".data then .ok ({ cfg with cmdline := ⟨value⟩ }, warnings)
  else .ok (cfg, warnings ++ ["undefined config key: " ++ ⟨key⟩])

/-- The line loop of `Config::parse` over the already-split lines. -/
def Config.parseLines (cfg : Config) (warnings : List String)
    (lines : List (List Char)) : Except String (Config × List String) :=
  match lines with
  | [] => .ok (cfg, warnings)
  | line :: rest =>
      let line := trimChars line
      if line.isEmpty ∨ line.take 1 = ['#'] then Config.parseLines cfg warnings rest
      else
        match splitFirst '=' line with
        | none => .error "failed to parse value"
        | some (key, value) =>
            match Config.process cfg warnings key value with
            | .error e => .error e
            | .ok (cfg2, warnings2) => Config.parseLines cfg2 warnings2 rest

/-- `Config::parse`: start from `DEFAULT_CONFIG`, split the text on `\n`,
trim each line, skip blank and `#`-comment lines, and process each
`key=value` pair (`splitn(2, '=')`).  The accumulated `warn!` messages
are returned alongside the parsed config; a panic inside parsing is
`.error`. -/
def Config.parse (content : String) : Except String (Config × List String) :=
  Config.parseLines DEFAULT_CONFIG [] (splitOnChar '\n' content.data)

/-! ### Kernel handoff record (`lib.rs`) -/

/-- Field types appearing in the handoff ABI. -/
inductive FieldTy where
  | memoryMap
  | u64
  | graphicInfo
  | modeInfo
  | strRef
deriving DecidableEq, Repr

/-- The fields of `BootInfo` in `lib.rs`, in declaration order (the struct
is `#[repr(C)]`, so this is also the layout order). -/
def bootInfoFields : List (String × FieldTy) :=
  [("memory_map", .memoryMap),
   ("physical_memory_offset", .u64),
   ("graphic_info", .graphicInfo),
   ("acpi2_rsdp_addr", .u64),
   ("initramfs_addr", .u64),
   ("initramfs_size", .u64),
   ("cmdline", .strRef)]

/-- The fields of `GraphicInfo` in `lib.rs`, in declaration order: the mode
descriptor, then the 64-bit framebuffer address and size. -/
def graphicInfoFields : List (String × FieldTy) :=
  [("mode", .modeInfo), ("fb_addr", .u64), ("fb_size", .u64)]

/-- Modelled from the spec (refinement side of the layout claim): the field
list the claim asserts for the handoff record, including an SMBIOS
physical address between the ACPI address and the initramfs fields. -/
def claimedBootInfoFields : List (String × FieldTy) :=
  [("memory_map", .memoryMap),
   ("physical_memory_offset", .u64),
   ("graphic_info", .graphicInfo),
   ("acpi2_rsdp_addr", .u64),
   ("smbios_addr", .u64),
   ("initramfs_addr", .u64),
   ("initramfs_size", .u64),
   ("cmdline", .strRef)]

/-! ## Loop characterization lemmas -/

/-- Characterization of the file-backed frame-mapping loop: on `n` pages that
are all unmapped, it succeeds, leaves memory untouched and installs
`page + k ↦ frame + k` for `k < n`. -/
theorem mapFrameRange_spec (n : Nat) :
    ∀ (st : MachineState) (page frame flags : Nat),
    (∀ k, k < n → st.pt (page + k) = none) →
    ∃ st', mapFrameRange st page frame flags n = .ok st' ∧
      st'.mem = st.mem ∧
      ∀ p, st'.pt p =
        if page ≤ p ∧ p < page + n then some (frame + (p - page), flags) else st.pt p := by
  induction n with
  | zero =>
      intro st page frame flags _
      refine ⟨st, rfl, rfl, ?_⟩
      intro p
      rw [if_neg]
      omega
  | succ n ih =>
      intro st page frame flags h
      have h0 : st.pt page = none := by
        have := h 0 (Nat.succ_pos n)
        simpa using this
      have hmap : mapTo st page frame flags =
          .ok { st with pt := fun p => if p = page then some (frame, flags) else st.pt p } := by
        simp [mapTo, h0]
      set st1 : MachineState :=
        { st with pt := fun p => if p = page then some (frame, flags) else st.pt p } with hst1
      have h1 : ∀ k, k < n → st1.pt (page + 1 + k) = none := by
        intro k hk
        show (if page + 1 + k = page then some (frame, flags) else st.pt (page + 1 + k)) = none
        rw [if_neg (by omega)]
        have := h (k + 1) (by omega)
        rwa [show page + (k + 1) = page + 1 + k by omega] at this
      obtain ⟨st', hrun, hmem, hpt⟩ := ih st1 (page + 1) (frame + 1) flags h1
      refine ⟨st', ?_, hmem, ?_⟩
      · show mapFrameRange st page frame flags (n + 1) = .ok st'
        simp only [mapFrameRange, hmap]
        exact hrun
      · intro p
        rw [hpt p]
        by_cases hp : p = page
        · subst hp
          rw [if_neg (by omega), if_pos (by omega)]
          show (if p = p then some (frame, flags) else st.pt p) = _
          rw [if_pos rfl]
          simp
        · by_cases hp2 : page + 1 ≤ p ∧ p < page + 1 + n
          · rw [if_pos hp2, if_pos (by omega)]
            congr 2
            omega
          · rw [if_neg hp2, if_neg (by omega)]
            show (if p = page then some (frame, flags) else st.pt p) = st.pt p
            rw [if_neg hp]

/-- Characterization of the zero-fill page-mapping loop: on `n` unmapped
pages and an allocator holding at least `n` frames, it succeeds, consumes
exactly `n` frames, leaves memory untouched and installs
`page + k ↦ alloc[k]` for `k < n`. -/
theorem mapZeroPages_spec (n : Nat) :
    ∀ (st : MachineState) (alloc : List Nat) (page flags : Nat),
    (∀ k, k < n → st.pt (page + k) = none) → n ≤ alloc.length →
    ∃ st', mapZeroPages st alloc page flags n = .ok (st', alloc.drop n) ∧
      st'.mem = st.mem ∧
      ∀ p, st'.pt p =
        if page ≤ p ∧ p < page + n then some (alloc.getD (p - page) 0, flags) else st.pt p := by
  induction n with
  | zero =>
      intro st alloc page flags _ _
      refine ⟨st, by simp [mapZeroPages], rfl, ?_⟩
      intro p
      rw [if_neg]
      omega
  | succ n ih =>
      intro st alloc page flags h hlen
      match alloc with
      | [] => simp at hlen
      | f :: rest =>
        have h0 : st.pt page = none := by
          have := h 0 (Nat.succ_pos n)
          simpa using this
        have hmap : mapTo st page f flags =
            .ok { st with pt := fun p => if p = page then some (f, flags) else st.pt p } := by
          simp [mapTo, h0]
        set st1 : MachineState :=
          { st with pt := fun p => if p = page then some (f, flags) else st.pt p } with hst1
        have h1 : ∀ k, k < n → st1.pt (page + 1 + k) = none := by
          intro k hk
          show (if page + 1 + k = page then some (f, flags) else st.pt (page + 1 + k)) = none
          rw [if_neg (by omega)]
          have := h (k + 1) (by omega)
          rwa [show page + (k + 1) = page + 1 + k by omega] at this
        have hlen1 : n ≤ rest.length := by simpa using hlen
        obtain ⟨st', hrun, hmem, hpt⟩ := ih st1 rest (page + 1) flags h1 hlen1
        refine ⟨st', ?_, hmem, ?_⟩
        · show mapZeroPages st (f :: rest) page flags (n + 1) = .ok (st', (f :: rest).drop (n + 1))
          simp only [mapZeroPages, hmap, List.drop_succ_cons]
          exact hrun
        · intro p
          rw [hpt p]
          by_cases hp : p = page
          · subst hp
            rw [if_neg (by omega), if_pos (by omega)]
            show (if p = p then some (f, flags) else st.pt p) = _
            rw [if_pos rfl]
            simp
          · by_cases hp2 : page + 1 ≤ p ∧ p < page + 1 + n
            · rw [if_pos hp2, if_pos (by omega)]
              obtain ⟨m, hm⟩ : ∃ m, p - page = m + 1 := ⟨p - page - 1, by omega⟩
              rw [hm]
              have hm1 : p - (page + 1) = m := by omega
              rw [hm1]
              simp
            · rw [if_neg hp2, if_neg (by omega)]
              show (if p = page then some (f, flags) else st.pt p) = st.pt p
              rw [if_neg hp]

/-- Characterization of the `write_bytes` zero pass: when each of the `n`
virtual bytes starting at `v` is on a mapped page, it succeeds, leaves the
page table untouched, zeroes exactly the translated physical addresses and
preserves every other byte. -/
theorem zeroVirtRange_spec (n : Nat) :
    ∀ (st : MachineState) (v : Nat),
    (∀ k, k < n → st.pt ((v + k) / PS) ≠ none) →
    ∃ st', zeroVirtRange st v n = .ok st' ∧
      st'.pt = st.pt ∧
      (∀ a, (∀ k, k < n → transAddr st.pt (v + k) ≠ some a) → st'.mem a = st.mem a) ∧
      (∀ k, k < n → ∀ a, transAddr st.pt (v + k) = some a → st'.mem a = 0) := by
  induction n with
  | zero =>
      intro st v _
      exact ⟨st, rfl, rfl, fun a _ => rfl, fun k hk => by omega⟩
  | succ n ih =>
      intro st v h
      have h0 : st.pt (v / PS) ≠ none := by
        have := h 0 (Nat.succ_pos n)
        simpa using this
      obtain ⟨f, fl, hf⟩ : ∃ f fl, st.pt (v / PS) = some (f, fl) := by
        cases hcase : st.pt (v / PS) with
        | none => exact absurd hcase h0
        | some q =>
            obtain ⟨f, fl⟩ := q
            exact ⟨f, fl, rfl⟩
      have hwrite : writeVirt st v 0 =
          .ok { st with mem := fun a => if a = f * PS + v % PS then 0 else st.mem a } := by
        simp [writeVirt, hf]
      set st1 : MachineState :=
        { st with mem := fun a => if a = f * PS + v % PS then 0 else st.mem a } with hst1
      have hpt1 : st1.pt = st.pt := rfl
      have h1 : ∀ k, k < n → st1.pt ((v + 1 + k) / PS) ≠ none := by
        intro k hk
        have := h (k + 1) (by omega)
        rwa [show v + (k + 1) = v + 1 + k by omega] at this
      obtain ⟨st', hrun, hpt, hkeep, hzero⟩ := ih st1 (v + 1) h1
      have htv : transAddr st.pt v = some (f * PS + v % PS) := by
        simp [transAddr, hf]
      refine ⟨st', ?_, hpt.trans hpt1, ?_, ?_⟩
      · show zeroVirtRange st v (n + 1) = .ok st'
        simp only [zeroVirtRange, hwrite]
        exact hrun
      · intro a ha
        have ha0 : transAddr st.pt v ≠ some a := by
          have := ha 0 (Nat.succ_pos n)
          simpa using this
        have hane : a ≠ f * PS + v % PS := by
          intro hEq
          exact ha0 (by rw [htv, hEq])
        have : st'.mem a = st1.mem a := by
          apply hkeep
          intro k hk
          have := ha (k + 1) (by omega)
          rwa [show v + (k + 1) = v + 1 + k by omega] at this
        rw [this]
        show (if a = f * PS + v % PS then 0 else st.mem a) = st.mem a
        rw [if_neg hane]
      · intro k hk a ha
        match k with
        | 0 =>
            simp only [Nat.add_zero] at ha
            rw [htv] at ha
            obtain rfl : a = f * PS + v % PS := by
              cases ha
              rfl
            by_cases hlater : ∀ k, k < n → transAddr st.pt (v + 1 + k) ≠ some (f * PS + v % PS)
            · have : st'.mem (f * PS + v % PS) = st1.mem (f * PS + v % PS) := hkeep _ hlater
              rw [this]
              show (if f * PS + v % PS = f * PS + v % PS then 0 else _) = 0
              rw [if_pos rfl]
            · push_neg at hlater
              obtain ⟨k', hk', hhit⟩ := hlater
              exact hzero k' hk' _ hhit
        | k + 1 =>
            have hk' : k < n := by omega
            have ha' : transAddr st1.pt (v + 1 + k) = some a := by
              rw [hpt1]
              rwa [show v + 1 + k = v + (k + 1) by omega]
            exact hzero k hk' a ha'

/-- The only error `mapTo` produces is `pageAlreadyMapped`. -/
theorem mapTo_error (st : MachineState) (page frame flags : Nat) (e : MapErr)
    (h : mapTo st page frame flags = .error e) : e = .pageAlreadyMapped := by
  unfold mapTo at h
  cases hcase : st.pt page with
  | none => rw [hcase] at h; simp at h
  | some q => rw [hcase] at h; simp at h; exact h.symm

/-- The only error `writeVirt` produces is `pageFault`. -/
theorem writeVirt_error (st : MachineState) (v b : Nat) (e : MapErr)
    (h : writeVirt st v b = .error e) : e = .pageFault := by
  unfold writeVirt at h
  cases hcase : st.pt (v / PS) with
  | none => rw [hcase] at h; simp at h; exact h.symm
  | some q => rw [hcase] at h; simp at h

/-- `mapZeroPages` never reaches an `unreachable!()`: its only errors are
allocation failure and an already-mapped page. -/
theorem mapZeroPages_no_panic (n : Nat) :
    ∀ st alloc page flags, mapZeroPages st alloc page flags n ≠ .error .panicked := by
  induction n with
  | zero => intro st alloc page flags; simp [mapZeroPages]
  | succ n ih =>
      intro st alloc page flags
      match alloc with
      | [] => simp [mapZeroPages]
      | f :: rest =>
        simp only [mapZeroPages]
        cases hmap : mapTo st page f flags with
        | error e =>
            have he := mapTo_error st page f flags e hmap
            subst he
            simp
        | ok st1 => simpa using ih st1 rest (page + 1) flags

/-- `zeroVirtRange` never reaches an `unreachable!()`: its only error is a
fault on an unmapped page. -/
theorem zeroVirtRange_no_panic (n : Nat) :
    ∀ st v, zeroVirtRange st v n ≠ .error .panicked := by
  induction n with
  | zero => intro st v; simp [zeroVirtRange]
  | succ n ih =>
      intro st v
      simp only [zeroVirtRange]
      cases hw : writeVirt st v 0 with
      | error e =>
          have he := writeVirt_error st v 0 e hw
          subst he
          simp
      | ok st1 => simpa using ih st1 (v + 1)

/-- Characterization of the shared-page block: with a nonempty allocator and
the last file-backed page currently mapped, it consumes exactly the head
frame, copies the `endFrame` frame into it, and atomically replaces the
`lastPage` mapping with the fresh frame under the segment flags. -/
theorem mapSegmentShared_spec (st1 : MachineState) (nf : Nat) (rest : List Nat)
    (endFrame lastPage flags fr0 fl0 : Nat)
    (h : st1.pt lastPage = some (fr0, fl0)) :
    ∃ st4, mapSegmentShared st1 (nf :: rest) endFrame lastPage flags = .ok (st4, rest) ∧
      (∀ a, st4.mem a =
        if nf * PS ≤ a ∧ a < nf * PS + PS then st1.mem (endFrame * PS + (a - nf * PS))
        else st1.mem a) ∧
      (∀ p, st4.pt p = if p = lastPage then some (nf, flags) else st1.pt p) := by
  have hunmap : unmapPage (copyFrame st1 endFrame nf) lastPage =
      .ok { mem := (copyFrame st1 endFrame nf).mem,
            pt := fun p => if p = lastPage then none else st1.pt p } := by
    simp [unmapPage, copyFrame, h]
  have hmapto :
      mapTo { mem := (copyFrame st1 endFrame nf).mem,
              pt := fun p => if p = lastPage then none else st1.pt p } lastPage nf flags =
      .ok { mem := (copyFrame st1 endFrame nf).mem,
            pt := fun p => if p = lastPage then some (nf, flags)
                           else (fun q => if q = lastPage then none else st1.pt q) p } := by
    simp [mapTo]
  refine ⟨{ mem := (copyFrame st1 endFrame nf).mem,
            pt := fun p => if p = lastPage then some (nf, flags)
                           else (fun q => if q = lastPage then none else st1.pt q) p },
          ?_, ?_, ?_⟩
  · simp only [mapSegmentShared, hunmap, hmapto]
  · intro a
    rfl
  · intro p
    by_cases hp : p = lastPage
    · simp [hp]
    · simp [hp]

/-- An in-bounds `getD` is a member of the list. -/
theorem getD_mem_of_lt (l : List Nat) (i : Nat) (h : i < l.length) : l.getD i 0 ∈ l := by
  induction l generalizing i with
  | nil => simp at h
  | cons x xs ih =>
      match i with
      | 0 => simp
      | i + 1 => exact List.mem_cons_of_mem x (ih i (by simpa using h))

/-- Master characterization of `map_segment` on a `Load` segment whose
zero-fill start is not page-aligned (the shared-page case), for a
page-aligned image buffer, segment offset and virtual address, starting
from an empty page table.  The allocator must hold the shared-page frame
plus one frame per remaining zero-fill page, all distinct and disjoint
from the image-buffer frames.  Afterwards every byte at segment-relative
offset below `file_size` reads as the original image byte at
`kernel_start + offset + o`, every byte in `[file_size, mem_size)` reads
as zero, and the shared page is mapped to the fresh head frame with the
segment's flags. -/
theorem map_segment_shared_case (seg : Segment) (kernelStart : Nat) (m : Nat → Nat)
    (nf : Nat) (rest : List Nat)
    (hty : seg.segType = .load)
    (hka : kernelStart % PS = 0)
    (hva : seg.virtualAddr % PS = 0)
    (hoa : seg.offset % PS = 0)
    (hfs : 0 < seg.fileSize)
    (hms : seg.fileSize < seg.memSize)
    (hun : seg.fileSize % PS ≠ 0)
    (hlen : (seg.virtualAddr + seg.memSize) / PS - (seg.virtualAddr + seg.fileSize) / PS
      ≤ rest.length)
    (hdisj : ∀ f ∈ nf :: rest, (kernelStart + seg.offset + seg.fileSize) / PS < f)
    (hnodup : (nf :: rest).Nodup) :
    ∃ st' alloc',
      map_segment seg kernelStart ⟨m, emptyPT⟩ (nf :: rest) = .ok (st', alloc') ∧
      alloc' = rest.drop
        ((seg.virtualAddr + seg.memSize) / PS - (seg.virtualAddr + seg.fileSize) / PS) ∧
      st'.pt ((seg.virtualAddr + seg.fileSize) / PS) =
        some (nf, trans_flags_x86 seg.isWrite seg.isExecute) ∧
      (∀ o, o < seg.fileSize →
        readVirt st' (seg.virtualAddr + o) = some (m (kernelStart + seg.offset + o))) ∧
      (∀ o, seg.fileSize ≤ o → o < seg.memSize →
        readVirt st' (seg.virtualAddr + o) = some 0) := by
  have hka4 : kernelStart % 4096 = 0 := hka
  have hva4 : seg.virtualAddr % 4096 = 0 := hva
  have hoa4 : seg.offset % 4096 = 0 := hoa
  have hun4 : seg.fileSize % 4096 ≠ 0 := hun
  have hlen4 : (seg.virtualAddr + seg.memSize) / 4096 - (seg.virtualAddr + seg.fileSize) / 4096
      ≤ rest.length := hlen
  have hdisj4 : ∀ f ∈ nf :: rest, (kernelStart + seg.offset + seg.fileSize) / 4096 < f := hdisj
  have hnfrest : nf ∉ rest := (List.nodup_cons.mp hnodup).1
  have hfo4 : seg.offset - seg.offset % 4096 = seg.offset := by omega
  -- phase A: map the file-backed frames
  obtain ⟨st1, hArun, hAmem, hApt⟩ :=
    mapFrameRange_spec
      ((kernelStart + seg.offset + seg.fileSize - 1) / 4096 + 1
        - (kernelStart + seg.offset) / 4096)
      ⟨m, emptyPT⟩ (seg.virtualAddr / 4096) ((kernelStart + seg.offset) / 4096)
      (trans_flags_x86 seg.isWrite seg.isExecute)
      (fun k _ => rfl)
  have hAmem4 : ∀ a, st1.mem a = m a := fun a => congrFun hAmem a
  -- the page holding the last file byte is mapped to the last file frame
  have hlp : st1.pt ((seg.virtualAddr + seg.fileSize - 1) / 4096) =
      some ((kernelStart + seg.offset + seg.fileSize - 1) / 4096,
        trans_flags_x86 seg.isWrite seg.isExecute) := by
    rw [hApt]
    rw [if_pos (by omega)]
    have harith : (kernelStart + seg.offset) / 4096 +
        ((seg.virtualAddr + seg.fileSize - 1) / 4096 - seg.virtualAddr / 4096) =
        (kernelStart + seg.offset + seg.fileSize - 1) / 4096 := by omega
    rw [harith]
  -- phase B: the shared-page block
  obtain ⟨st4, hSrun, hSmem, hSpt⟩ :=
    mapSegmentShared_spec st1 nf rest
      ((kernelStart + seg.offset + seg.fileSize - 1) / 4096)
      ((seg.virtualAddr + seg.fileSize - 1) / 4096)
      (trans_flags_x86 seg.isWrite seg.isExecute) _ _ hlp
  have hSmem4 : ∀ a, st4.mem a =
      if nf * 4096 ≤ a ∧ a < nf * 4096 + 4096
      then st1.mem ((kernelStart + seg.offset + seg.fileSize - 1) / 4096 * 4096 + (a - nf * 4096))
      else st1.mem a := hSmem
  -- phase C: fresh frames for the remaining zero-fill pages
  have hzp : ∀ k, k < (seg.virtualAddr + seg.memSize) / 4096 + 1
      - ((seg.virtualAddr + seg.fileSize - 1) / 4096 + 1) →
      st4.pt ((seg.virtualAddr + seg.fileSize - 1) / 4096 + 1 + k) = none := by
    intro k hk
    rw [hSpt, if_neg (by omega), hApt, if_neg (by omega)]
    rfl
  obtain ⟨st5, hZrun, hZmem, hZpt⟩ :=
    mapZeroPages_spec
      ((seg.virtualAddr + seg.memSize) / 4096 + 1
        - ((seg.virtualAddr + seg.fileSize - 1) / 4096 + 1))
      st4 rest ((seg.virtualAddr + seg.fileSize - 1) / 4096 + 1)
      (trans_flags_x86 seg.isWrite seg.isExecute) hzp (by omega)
  -- phase D: the zero pass over the virtual range
  have hmapped : ∀ k, k < seg.memSize - seg.fileSize →
      st5.pt ((seg.virtualAddr + seg.fileSize + k) / 4096) ≠ none := by
    intro k hk
    by_cases hq : (seg.virtualAddr + seg.fileSize + k) / 4096 =
        (seg.virtualAddr + seg.fileSize - 1) / 4096
    · rw [hq, hZpt, if_neg (by omega), hSpt, if_pos rfl]
      simp
    · rw [hZpt, if_pos (by omega)]
      simp
  obtain ⟨st6, hWrun, hWpt, hWkeep, hWzero⟩ :=
    zeroVirtRange_spec (seg.memSize - seg.fileSize) st5
      (seg.virtualAddr + seg.fileSize) hmapped
  have hcount : (seg.virtualAddr + seg.memSize) / 4096 + 1
      - ((seg.virtualAddr + seg.fileSize - 1) / 4096 + 1) =
      (seg.virtualAddr + seg.memSize) / 4096 - (seg.virtualAddr + seg.fileSize) / 4096 := by
    omega
  -- the complete run of map_segment
  have hrun : map_segment seg kernelStart ⟨m, emptyPT⟩ (nf :: rest) =
      .ok (st6, rest.drop ((seg.virtualAddr + seg.memSize) / 4096 + 1
        - ((seg.virtualAddr + seg.fileSize - 1) / 4096 + 1))) := by
    unfold map_segment
    rw [if_pos hty]
    simp only [PS]
    simp only [hfo4]
    simp only [hArun]
    rw [if_pos hms]
    simp only [mapSegmentZeroFill]
    simp only [PS]
    rw [if_pos (show ¬((seg.virtualAddr + seg.fileSize) % 4096 = 0) by omega)]
    simp only [hSrun]
    rw [show align_up (seg.virtualAddr + seg.fileSize) 4096 / 4096 =
        (seg.virtualAddr + seg.fileSize - 1) / 4096 + 1 by simp only [align_up]; omega]
    simp only [hZrun]
    simp only [hWrun]
  -- the final page table at the shared page
  have hlastpt : st6.pt ((seg.virtualAddr + seg.fileSize) / 4096) =
      some (nf, trans_flags_x86 seg.isWrite seg.isExecute) := by
    rw [hWpt, hZpt, if_neg (by omega), hSpt, if_pos (by omega)]
  -- where the zero writes land
  have htrans : ∀ k, k < seg.memSize - seg.fileSize → ∀ a,
      transAddr st5.pt (seg.virtualAddr + seg.fileSize + k) = some a →
      (∃ j, a = nf * 4096 + j ∧ j < 4096 ∧ seg.fileSize % 4096 ≤ j) ∨
      (∃ fz j, fz ∈ rest ∧ a = fz * 4096 + j ∧ j < 4096) := by
    intro k hk a ha
    unfold transAddr at ha
    simp only [PS] at ha
    by_cases hq : (seg.virtualAddr + seg.fileSize + k) / 4096 =
        (seg.virtualAddr + seg.fileSize - 1) / 4096
    · left
      rw [hq, hZpt, if_neg (by omega), hSpt, if_pos rfl] at ha
      simp only [Option.some.injEq] at ha
      exact ⟨(seg.virtualAddr + seg.fileSize + k) % 4096, by omega, by omega, by omega⟩
    · right
      have hin : (seg.virtualAddr + seg.fileSize - 1) / 4096 + 1 ≤
            (seg.virtualAddr + seg.fileSize + k) / 4096 ∧
          (seg.virtualAddr + seg.fileSize + k) / 4096 <
            (seg.virtualAddr + seg.fileSize - 1) / 4096 + 1 +
            ((seg.virtualAddr + seg.memSize) / 4096 + 1
              - ((seg.virtualAddr + seg.fileSize - 1) / 4096 + 1)) := by omega
      rw [hZpt, if_pos hin] at ha
      simp only [Option.some.injEq] at ha
      refine ⟨rest.getD ((seg.virtualAddr + seg.fileSize + k) / 4096
          - ((seg.virtualAddr + seg.fileSize - 1) / 4096 + 1)) 0,
        (seg.virtualAddr + seg.fileSize + k) % 4096, ?_, by omega, by omega⟩
      exact getD_mem_of_lt rest _ (by omega)
  -- reads of the file-backed part
  have hreadA : ∀ o, o < seg.fileSize →
      readVirt st6 (seg.virtualAddr + o) = some (m (kernelStart + seg.offset + o)) := by
    intro o ho
    by_cases hop : (seg.virtualAddr + o) / 4096 = (seg.virtualAddr + seg.fileSize - 1) / 4096
    · -- the shared page: content was copied to the fresh frame
      have hq : st6.pt ((seg.virtualAddr + o) / 4096) =
          some (nf, trans_flags_x86 seg.isWrite seg.isExecute) := by
        rw [hWpt, hop, hZpt, if_neg (by omega), hSpt, if_pos rfl]
      simp only [readVirt, PS]
      simp only [hq]
      have hkeep : st6.mem (nf * 4096 + (seg.virtualAddr + o) % 4096) =
          st5.mem (nf * 4096 + (seg.virtualAddr + o) % 4096) := by
        apply hWkeep
        intro k hk hhit
        rcases htrans k hk _ hhit with ⟨j, hj, hjlt, hjge⟩ | ⟨fz, j, hfz, hj, hjlt⟩
        · omega
        · have hfzn : fz ≠ nf := fun hEq => hnfrest (hEq ▸ hfz)
          omega
      rw [hkeep, hZmem, hSmem4, if_pos (by omega)]
      rw [hAmem4]
      rw [show (kernelStart + seg.offset + seg.fileSize - 1) / 4096 * 4096 +
          (nf * 4096 + (seg.virtualAddr + o) % 4096 - nf * 4096) =
          kernelStart + seg.offset + o by omega]
    · -- a fully file-backed page, still mapped onto the image buffer
      have hq : st6.pt ((seg.virtualAddr + o) / 4096) =
          some ((kernelStart + seg.offset) / 4096
            + ((seg.virtualAddr + o) / 4096 - seg.virtualAddr / 4096),
            trans_flags_x86 seg.isWrite seg.isExecute) := by
        rw [hWpt, hZpt, if_neg (by omega), hSpt, if_neg hop, hApt, if_pos (by omega)]
      simp only [readVirt, PS]
      simp only [hq]
      have hub : (kernelStart + seg.offset + seg.fileSize) / 4096 < nf :=
        hdisj4 nf (List.mem_cons_self nf rest)
      have hkeep : st6.mem (((kernelStart + seg.offset) / 4096
            + ((seg.virtualAddr + o) / 4096 - seg.virtualAddr / 4096)) * 4096
          + (seg.virtualAddr + o) % 4096) =
          st5.mem (((kernelStart + seg.offset) / 4096
            + ((seg.virtualAddr + o) / 4096 - seg.virtualAddr / 4096)) * 4096
          + (seg.virtualAddr + o) % 4096) := by
        apply hWkeep
        intro k hk hhit
        rcases htrans k hk _ hhit with ⟨j, hj, hjlt, hjge⟩ | ⟨fz, j, hfz, hj, hjlt⟩
        · omega
        · have hubz : (kernelStart + seg.offset + seg.fileSize) / 4096 < fz :=
            hdisj4 fz (List.mem_cons_of_mem nf hfz)
          omega
      rw [hkeep, hZmem, hSmem4, if_neg (by omega)]
      rw [hAmem4]
      rw [show ((kernelStart + seg.offset) / 4096
            + ((seg.virtualAddr + o) / 4096 - seg.virtualAddr / 4096)) * 4096
          + (seg.virtualAddr + o) % 4096 = kernelStart + seg.offset + o by omega]
  -- reads of the zero-fill part
  have hreadB : ∀ o, seg.fileSize ≤ o → o < seg.memSize →
      readVirt st6 (seg.virtualAddr + o) = some 0 := by
    intro o ho1 ho2
    rw [show seg.virtualAddr + o =
        seg.virtualAddr + seg.fileSize + (o - seg.fileSize) by omega]
    by_cases hq : (seg.virtualAddr + seg.fileSize + (o - seg.fileSize)) / 4096 =
        (seg.virtualAddr + seg.fileSize - 1) / 4096
    · have hqv : st6.pt ((seg.virtualAddr + seg.fileSize + (o - seg.fileSize)) / 4096) =
          some (nf, trans_flags_x86 seg.isWrite seg.isExecute) := by
        rw [hWpt, hq, hZpt, if_neg (by omega), hSpt, if_pos rfl]
      simp only [readVirt, PS]
      simp only [hqv]
      have hzero : st6.mem (nf * 4096 +
          (seg.virtualAddr + seg.fileSize + (o - seg.fileSize)) % 4096) = 0 := by
        apply hWzero (o - seg.fileSize) (by omega)
        unfold transAddr
        simp only [PS]
        rw [hq, hZpt, if_neg (by omega), hSpt, if_pos rfl]
      rw [hzero]
    · have hin : (seg.virtualAddr + seg.fileSize - 1) / 4096 + 1 ≤
            (seg.virtualAddr + seg.fileSize + (o - seg.fileSize)) / 4096 ∧
          (seg.virtualAddr + seg.fileSize + (o - seg.fileSize)) / 4096 <
            (seg.virtualAddr + seg.fileSize - 1) / 4096 + 1 +
            ((seg.virtualAddr + seg.memSize) / 4096 + 1
              - ((seg.virtualAddr + seg.fileSize - 1) / 4096 + 1)) := by omega
      have hqv : st6.pt ((seg.virtualAddr + seg.fileSize + (o - seg.fileSize)) / 4096) =
          some (rest.getD ((seg.virtualAddr + seg.fileSize + (o - seg.fileSize)) / 4096
            - ((seg.virtualAddr + seg.fileSize - 1) / 4096 + 1)) 0,
            trans_flags_x86 seg.isWrite seg.isExecute) := by
        rw [hWpt, hZpt, if_pos hin]
      simp only [readVirt, PS]
      simp only [hqv]
      have hzero : st6.mem (rest.getD
            ((seg.virtualAddr + seg.fileSize + (o - seg.fileSize)) / 4096
              - ((seg.virtualAddr + seg.fileSize - 1) / 4096 + 1)) 0 * 4096 +
          (seg.virtualAddr + seg.fileSize + (o - seg.fileSize)) % 4096) = 0 := by
        apply hWzero (o - seg.fileSize) (by omega)
        unfold transAddr
        simp only [PS]
        rw [hZpt, if_pos hin]
      rw [hzero]
  exact ⟨st6, _, hrun, by simp only [hcount, PS], hlastpt, hreadA, hreadB⟩

/-- Characterization of the 2 MiB frame loop of `map_physical_memory`: on `n`
unmapped target pages it succeeds and installs, for `k < n`, the page
containing `(frame + k) * PS2M + offset` mapped to frame `frame + k` with
`flags`. -/
theorem mapPhysFrames_spec (n : Nat) :
    ∀ (pt2 : Nat → Option (Nat × Nat)) (offset flags frame : Nat),
    (∀ k, k < n → pt2 (frame + k + offset / PS2M) = none) →
    ∃ pt2', mapPhysFrames pt2 offset flags frame n = .ok pt2' ∧
      ∀ p, pt2' p =
        if frame + offset / PS2M ≤ p ∧ p < frame + n + offset / PS2M
        then some (p - offset / PS2M, flags) else pt2 p := by
  induction n with
  | zero =>
      intro pt2 offset flags frame _
      refine ⟨pt2, rfl, ?_⟩
      intro p
      rw [if_neg]
      omega
  | succ n ih =>
      intro pt2 offset flags frame h
      have hpage : (frame * PS2M + offset) / PS2M = frame + offset / PS2M := by
        exact (show (frame * 2097152 + offset) / 2097152 = frame + offset / 2097152 by omega)
      have h0 : pt2 ((frame * PS2M + offset) / PS2M) = none := by
        rw [hpage]
        have := h 0 (Nat.succ_pos n)
        simpa using this
      have h1 : ∀ k, k < n →
          (fun p => if p = (frame * PS2M + offset) / PS2M then some (frame, flags) else pt2 p)
            (frame + 1 + k + offset / PS2M) = none := by
        intro k hk
        show (if frame + 1 + k + offset / PS2M = (frame * PS2M + offset) / PS2M
          then some (frame, flags) else pt2 (frame + 1 + k + offset / PS2M)) = none
        rw [if_neg (by rw [hpage]; omega)]
        have := h (k + 1) (by omega)
        rwa [show frame + (k + 1) + offset / PS2M = frame + 1 + k + offset / PS2M by omega]
          at this
      obtain ⟨pt2f, hrun, hpt⟩ := ih
        (fun p => if p = (frame * PS2M + offset) / PS2M then some (frame, flags) else pt2 p)
        offset flags (frame + 1) h1
      refine ⟨pt2f, ?_, ?_⟩
      · show mapPhysFrames pt2 offset flags frame (n + 1) = .ok pt2f
        simp only [mapPhysFrames, h0]
        exact hrun
      · intro p
        rw [hpt p]
        by_cases hp : p = frame + offset / PS2M
        · subst hp
          rw [if_neg (by omega), if_pos (by omega), if_pos (by omega),
            show frame + offset / PS2M - offset / PS2M = frame by omega]
        · by_cases hp2 : frame + 1 + offset / PS2M ≤ p ∧ p < frame + 1 + n + offset / PS2M
          · rw [if_pos hp2, if_pos (by omega)]
          · rw [if_neg hp2, if_neg (by omega), if_neg (by omega)]

/-- `map_segment` on a `Load` segment with `mem_size = file_size`: the
zero-fill branch is skipped, the allocator is returned untouched, memory
is unchanged, and every installed mapping targets an image-buffer frame
`(kernel_start + (offset & !0xfff)) / PS + k` at page
`virtual_addr / PS + k`. -/
theorem map_segment_file_backed (seg : Segment) (kernelStart : Nat) (m : Nat → Nat)
    (alloc : List Nat)
    (hty : seg.segType = .load)
    (hka : kernelStart % PS = 0)
    (hfs : 0 < seg.fileSize)
    (heq : seg.memSize = seg.fileSize) :
    ∃ st', map_segment seg kernelStart ⟨m, emptyPT⟩ alloc = .ok (st', alloc) ∧
      st'.mem = m ∧
      ∀ p fr fl, st'.pt p = some (fr, fl) →
        ∃ k, k ≤ (seg.fileSize - 1) / PS ∧
          p = seg.virtualAddr / PS + k ∧
          fr = (kernelStart + (seg.offset - seg.offset % PS)) / PS + k ∧
          fl = trans_flags_x86 seg.isWrite seg.isExecute := by
  have hka4 : kernelStart % 4096 = 0 := hka
  obtain ⟨st1, hArun, hAmem, hApt⟩ :=
    mapFrameRange_spec
      ((kernelStart + (seg.offset - seg.offset % 4096) + seg.fileSize - 1) / 4096 + 1
        - (kernelStart + (seg.offset - seg.offset % 4096)) / 4096)
      ⟨m, emptyPT⟩ (seg.virtualAddr / 4096)
      ((kernelStart + (seg.offset - seg.offset % 4096)) / 4096)
      (trans_flags_x86 seg.isWrite seg.isExecute)
      (fun k _ => rfl)
  refine ⟨st1, ?_, hAmem, ?_⟩
  · unfold map_segment
    rw [if_pos hty]
    simp only [PS]
    simp only [hArun]
    rw [if_neg (by omega)]
  · intro p fr fl h
    simp only [PS]
    rw [hApt] at h
    by_cases hp : seg.virtualAddr / 4096 ≤ p ∧
        p < seg.virtualAddr / 4096 +
          ((kernelStart + (seg.offset - seg.offset % 4096) + seg.fileSize - 1) / 4096 + 1
            - (kernelStart + (seg.offset - seg.offset % 4096)) / 4096)
    · rw [if_pos hp] at h
      simp only [Option.some.injEq, Prod.mk.injEq] at h
      exact ⟨p - seg.virtualAddr / 4096, by omega, by omega, by omega, h.2.symm⟩
    · rw [if_neg hp] at h
      simp [emptyPT] at h

/-- If the page to be remapped is currently mapped, the shared-page block
never reaches its `unreachable!()` arms. -/
theorem mapSegmentShared_no_panic (st1 : MachineState) (alloc : List Nat)
    (endFrame lastPage flags : Nat) (h : st1.pt lastPage ≠ none) :
    mapSegmentShared st1 alloc endFrame lastPage flags ≠ .error .panicked := by
  match alloc with
  | [] => simp [mapSegmentShared]
  | nf :: rest =>
      obtain ⟨fr0, fl0, hsome⟩ : ∃ fr0 fl0, st1.pt lastPage = some (fr0, fl0) := by
        cases hcase : st1.pt lastPage with
        | none => exact absurd hcase h
        | some q =>
            obtain ⟨fr0, fl0⟩ := q
            exact ⟨fr0, fl0, rfl⟩
      obtain ⟨st4, hSrun, _, _⟩ :=
        mapSegmentShared_spec st1 nf rest endFrame lastPage flags fr0 fl0 hsome
      rw [hSrun]
      simp

/-- The zero-fill block never reaches an `unreachable!()` arm provided the
last file-backed page is mapped whenever the shared-page branch fires. -/
theorem mapSegmentZeroFill_no_panic (st1 : MachineState) (alloc : List Nat)
    (virtStart fileSize memSize endFrame flags : Nat)
    (hsh : (virtStart + fileSize) % PS ≠ 0 →
      st1.pt ((virtStart + fileSize - 1) / PS) ≠ none) :
    mapSegmentZeroFill st1 alloc virtStart fileSize memSize endFrame flags
      ≠ .error .panicked := by
  simp only [mapSegmentZeroFill]
  have htail : ∀ (st4 : MachineState) (alloc4 : List Nat),
      (match mapZeroPages st4 alloc4 (align_up (virtStart + fileSize) PS / PS) flags
          ((virtStart + memSize) / PS + 1 - align_up (virtStart + fileSize) PS / PS) with
        | .error e => Except.error e
        | .ok (st5, alloc5) =>
          match zeroVirtRange st5 (virtStart + fileSize) (memSize - fileSize) with
          | .error e => Except.error e
          | .ok st6 => Except.ok (st6, alloc5)) ≠
        (Except.error MapErr.panicked : Except MapErr (MachineState × List Nat)) := by
    intro st4 alloc4
    cases hZ : mapZeroPages st4 alloc4 (align_up (virtStart + fileSize) PS / PS) flags
        ((virtStart + memSize) / PS + 1 - align_up (virtStart + fileSize) PS / PS) with
    | error e =>
        have := mapZeroPages_no_panic
          ((virtStart + memSize) / PS + 1 - align_up (virtStart + fileSize) PS / PS)
          st4 alloc4 (align_up (virtStart + fileSize) PS / PS) flags
        rw [hZ] at this
        simpa using this
    | ok pair =>
        obtain ⟨st5, alloc5⟩ := pair
        simp only
        cases hW : zeroVirtRange st5 (virtStart + fileSize) (memSize - fileSize) with
        | error e =>
            have := zeroVirtRange_no_panic (memSize - fileSize) st5 (virtStart + fileSize)
            rw [hW] at this
            simpa using this
        | ok st6 => simp
  by_cases hz : (virtStart + fileSize) % PS ≠ 0
  · rw [if_pos hz]
    cases hS : mapSegmentShared st1 alloc endFrame ((virtStart + fileSize - 1) / PS) flags with
    | error e =>
        have := mapSegmentShared_no_panic st1 alloc endFrame
          ((virtStart + fileSize - 1) / PS) flags (hsh hz)
        rw [hS] at this
        simpa using this
    | ok pair =>
        obtain ⟨st4, alloc4⟩ := pair
        simp only
        exact htail st4 alloc4
  · rw [if_neg hz]
    exact htail st1 alloc

/-- For a `Load` segment with `file_size > 0` (page-aligned image base,
offset and virtual address, empty initial table), `map_segment` never
reaches the `unreachable!()` arms of the unmap match, whatever the
allocator contents: the page it unmaps was installed by the preceding
file-backed loop. -/
theorem map_segment_never_unreachable (seg : Segment) (kernelStart : Nat) (m : Nat → Nat)
    (alloc : List Nat)
    (hty : seg.segType = .load)
    (hka : kernelStart % PS = 0)
    (hva : seg.virtualAddr % PS = 0)
    (hoa : seg.offset % PS = 0)
    (hfs : 0 < seg.fileSize) :
    map_segment seg kernelStart ⟨m, emptyPT⟩ alloc ≠ .error .panicked := by
  have hka4 : kernelStart % 4096 = 0 := hka
  have hva4 : seg.virtualAddr % 4096 = 0 := hva
  have hoa4 : seg.offset % 4096 = 0 := hoa
  have hfo4 : seg.offset - seg.offset % 4096 = seg.offset := by omega
  obtain ⟨st1, hArun, hAmem, hApt⟩ :=
    mapFrameRange_spec
      ((kernelStart + seg.offset + seg.fileSize - 1) / 4096 + 1
        - (kernelStart + seg.offset) / 4096)
      ⟨m, emptyPT⟩ (seg.virtualAddr / 4096) ((kernelStart + seg.offset) / 4096)
      (trans_flags_x86 seg.isWrite seg.isExecute)
      (fun k _ => rfl)
  unfold map_segment
  rw [if_pos hty]
  simp only [PS]
  simp only [hfo4]
  simp only [hArun]
  by_cases hms : seg.memSize > seg.fileSize
  · rw [if_pos hms]
    apply mapSegmentZeroFill_no_panic
    intro hz
    have hz4 : (seg.virtualAddr + seg.fileSize) % 4096 ≠ 0 := hz
    rw [show (seg.virtualAddr + seg.fileSize - 1) / PS =
        (seg.virtualAddr + seg.fileSize - 1) / 4096 from rfl, hApt, if_pos (by omega)]
    simp
  · rw [if_neg hms]
    simp

/-- With an exhausted frame source and a `Load` segment that needs the
shared-page copy, `map_segment` fails with `FrameAllocationFailed` — a
plain error value, with no partial-success result. -/
theorem map_segment_exhausted (seg : Segment) (kernelStart : Nat) (m : Nat → Nat)
    (hty : seg.segType = .load)
    (hka : kernelStart % PS = 0)
    (hva : seg.virtualAddr % PS = 0)
    (hoa : seg.offset % PS = 0)
    (hfs : 0 < seg.fileSize)
    (hms : seg.fileSize < seg.memSize)
    (hun : seg.fileSize % PS ≠ 0) :
    map_segment seg kernelStart ⟨m, emptyPT⟩ [] = .error .frameAllocationFailed := by
  have hka4 : kernelStart % 4096 = 0 := hka
  have hva4 : seg.virtualAddr % 4096 = 0 := hva
  have hoa4 : seg.offset % 4096 = 0 := hoa
  have hun4 : seg.fileSize % 4096 ≠ 0 := hun
  have hfo4 : seg.offset - seg.offset % 4096 = seg.offset := by omega
  obtain ⟨st1, hArun, hAmem, hApt⟩ :=
    mapFrameRange_spec
      ((kernelStart + seg.offset + seg.fileSize - 1) / 4096 + 1
        - (kernelStart + seg.offset) / 4096)
      ⟨m, emptyPT⟩ (seg.virtualAddr / 4096) ((kernelStart + seg.offset) / 4096)
      (trans_flags_x86 seg.isWrite seg.isExecute)
      (fun k _ => rfl)
  unfold map_segment
  rw [if_pos hty]
  simp only [PS]
  simp only [hfo4]
  simp only [hArun]
  rw [if_pos hms]
  simp only [mapSegmentZeroFill]
  simp only [PS]
  rw [if_pos (show ¬((seg.virtualAddr + seg.fileSize) % 4096 = 0) by omega)]
  simp [mapSegmentShared]

/-! ## Claim theorems -/

/-- C2 (amended): every mapping installed by `map_physical_memory` carries
flags that are present and writable on both architectures; it is the
aarch64 variant whose `default_ptf` (`VALID | PXN`) additionally carries
the privileged deny-execute flag, while the x86_64 variant
(`PRESENT | WRITABLE`) carries no deny-execute flag. -/
theorem C2_phys_memory_default_flags (offset maxAddr : Nat) :
    (∃ pt2, map_physical_memory_x86 offset maxAddr emptyPT = .ok pt2 ∧
      ∀ p fr fl, pt2 p = some (fr, fl) → fl = default_ptf_x86 ∧
        fl &&& PRESENT = PRESENT ∧ fl &&& WRITABLE = WRITABLE ∧ fl &&& NO_EXECUTE = 0) ∧
    (∃ pt2, map_physical_memory_aarch64 offset maxAddr emptyPT = .ok pt2 ∧
      ∀ p fr fl, pt2 p = some (fr, fl) → fl = default_ptf_aarch64 ∧
        fl &&& VALID = VALID ∧ fl &&& AP_RO = 0 ∧ fl &&& PXN = PXN) := by
  constructor
  · obtain ⟨pt2, hrun, hpt⟩ := mapPhysFrames_spec (maxAddr / PS2M + 1) emptyPT offset
      default_ptf_x86 0 (fun k _ => rfl)
    refine ⟨pt2, hrun, ?_⟩
    intro p fr fl h
    rw [hpt p] at h
    by_cases hp : 0 + offset / PS2M ≤ p ∧ p < 0 + (maxAddr / PS2M + 1) + offset / PS2M
    · rw [if_pos hp] at h
      simp only [Option.some.injEq, Prod.mk.injEq] at h
      refine ⟨h.2.symm, ?_, ?_, ?_⟩ <;> rw [← h.2] <;> decide
    · rw [if_neg hp] at h
      simp [emptyPT] at h
  · obtain ⟨pt2, hrun, hpt⟩ := mapPhysFrames_spec (maxAddr / PS2M + 1) emptyPT offset
      default_ptf_aarch64 0 (fun k _ => rfl)
    refine ⟨pt2, hrun, ?_⟩
    intro p fr fl h
    rw [hpt p] at h
    by_cases hp : 0 + offset / PS2M ≤ p ∧ p < 0 + (maxAddr / PS2M + 1) + offset / PS2M
    · rw [if_pos hp] at h
      simp only [Option.some.injEq, Prod.mk.injEq] at h
      refine ⟨h.2.symm, ?_, ?_, ?_⟩ <;> rw [← h.2] <;> decide
    · rw [if_neg hp] at h
      simp [emptyPT] at h

/-- C2 counterexample: with the orchestrator's own arguments (offset
`0xffff800000000000`, `max_addr` 4 GiB), the x86_64 physical-memory
mapping at physical 0 carries exactly `PRESENT | WRITABLE` — no
deny-execute flag, contradicting the claim that the x86_64 variant adds
one. -/
theorem C2_x86_no_deny_execute_counterexample :
    ∃ pt2, map_physical_memory_x86 0xffff800000000000 0x100000000 emptyPT = .ok pt2 ∧
      pt2 (0xffff800000000000 / PS2M) = some (0, default_ptf_x86) ∧
      default_ptf_x86 &&& NO_EXECUTE = 0 := by
  obtain ⟨pt2, hrun, hpt⟩ := mapPhysFrames_spec (0x100000000 / PS2M + 1) emptyPT
    0xffff800000000000 default_ptf_x86 0 (fun k _ => rfl)
  refine ⟨pt2, hrun, ?_, by decide⟩
  have hc : 0 + (0xffff800000000000 : Nat) / PS2M ≤ 0xffff800000000000 / PS2M ∧
      (0xffff800000000000 : Nat) / PS2M <
        0 + ((0x100000000 : Nat) / PS2M + 1) + 0xffff800000000000 / PS2M := by
    decide
  rw [hpt, if_pos hc,
    show (0xffff800000000000 : Nat) / PS2M - 0xffff800000000000 / PS2M = 0 by omega]

/-- C3 (amended): for a 2 MiB-aligned offset, `map_physical_memory` covers
`[offset, offset + max_addr)` with no gaps, mapping each address to its
physical counterpart; the mapped range extends exactly to the end of the
2 MiB page containing `max_addr` (`range_inclusive` includes the frame
containing `max_addr`), and nothing outside that extent is mapped.  The
orchestrator's `max_phys_addr` is always at least 4 GiB. -/
theorem C3_phys_memory_cover (offset maxAddr : Nat) (hal : offset % PS2M = 0) :
    (∃ pt2, map_physical_memory_x86 offset maxAddr emptyPT = .ok pt2 ∧
      (∀ v, offset ≤ v → v < offset + maxAddr → transAddr2M pt2 v = some (v - offset)) ∧
      (∀ v, offset ≤ v → v < offset + (maxAddr / PS2M + 1) * PS2M →
        transAddr2M pt2 v = some (v - offset)) ∧
      (∀ v, v < offset → transAddr2M pt2 v = none) ∧
      (∀ v, offset + (maxAddr / PS2M + 1) * PS2M ≤ v → transAddr2M pt2 v = none)) ∧
    (∀ regions r, maxPhysAddr regions = some r → 0x100000000 ≤ r) := by
  have hal4 : offset % 2097152 = 0 := hal
  constructor
  · obtain ⟨pt2, hrun, hpt⟩ := mapPhysFrames_spec (maxAddr / PS2M + 1) emptyPT offset
      default_ptf_x86 0 (fun k _ => rfl)
    have hpt4 : ∀ p, pt2 p =
        if 0 + offset / 2097152 ≤ p ∧ p < 0 + (maxAddr / 2097152 + 1) + offset / 2097152
        then some (p - offset / 2097152, default_ptf_x86) else none := by
      intro p
      rw [hpt p]
      rfl
    have htr : ∀ v, transAddr2M pt2 v =
        match pt2 (v / 2097152) with
        | none => none
        | some (f, _) => some (f * 2097152 + v % 2097152) := fun v => rfl
    have hcover : ∀ v, offset ≤ v → v < offset + (maxAddr / 2097152 + 1) * 2097152 →
        transAddr2M pt2 v = some (v - offset) := by
      intro v h1 h2
      have hc : 0 + offset / 2097152 ≤ v / 2097152 ∧
          v / 2097152 < 0 + (maxAddr / 2097152 + 1) + offset / 2097152 := by omega
      rw [htr v, hpt4, if_pos hc,
        show v / 2097152 - offset / 2097152 = (v - offset) / 2097152 by omega]
      have harith : (v - offset) / 2097152 * 2097152 + v % 2097152 = v - offset := by omega
      show some ((v - offset) / 2097152 * 2097152 + v % 2097152) = some (v - offset)
      rw [harith]
    refine ⟨pt2, hrun, ?_, ?_, ?_, ?_⟩
    · intro v h1 h2
      exact hcover v h1 (by omega)
    · intro v h1 h2
      exact hcover v h1 (by
        have h2l : v < offset + (maxAddr / 2097152 + 1) * 2097152 := h2
        omega)
    · intro v hv
      rw [htr v, hpt4, if_neg (by omega)]
    · intro v hv
      have hv4 : offset + (maxAddr / 2097152 + 1) * 2097152 ≤ v := hv
      rw [htr v, hpt4, if_neg (by omega)]
  · intro regions r h
    unfold maxPhysAddr at h
    cases hm : (regions.map fun q => q.1 + q.2 * 0x1000).max? with
    | none => rw [hm] at h; simp at h
    | some mx =>
        rw [hm] at h
        simp at h
        rw [← h]
        exact Nat.le_max_right mx 0x100000000

/-- C3 counterexample: with the loader's own offset and a 4 GiB `max_addr`,
the address `offset + max_addr` — outside `[offset, offset + max_addr)` —
is nonetheless mapped (to physical `max_addr`), because
`range_inclusive(containing(0), containing(max_addr))` includes the frame
containing `max_addr` itself. -/
theorem C3_maps_beyond_range_counterexample :
    ∃ pt2, map_physical_memory_x86 0xffff800000000000 0x100000000 emptyPT = .ok pt2 ∧
      transAddr2M pt2 (0xffff800000000000 + 0x100000000) = some 0x100000000 := by
  obtain ⟨pt2, hrun, hpt⟩ := mapPhysFrames_spec (0x100000000 / PS2M + 1) emptyPT
    0xffff800000000000 default_ptf_x86 0 (fun k _ => rfl)
  have htr : ∀ v, transAddr2M pt2 v =
      match pt2 (v / 2097152) with
      | none => none
      | some (f, _) => some (f * 2097152 + v % 2097152) := fun v => rfl
  have hpt4 : ∀ p, pt2 p =
      if 0 + 0xffff800000000000 / 2097152 ≤ p ∧
        p < 0 + (0x100000000 / 2097152 + 1) + 0xffff800000000000 / 2097152
      then some (p - 0xffff800000000000 / 2097152, default_ptf_x86) else none := by
    intro p
    rw [hpt p]
    rfl
  refine ⟨pt2, hrun, ?_⟩
  have hc : 0 + (0xffff800000000000 : Nat) / 2097152 ≤
        (0xffff800000000000 + 0x100000000) / 2097152 ∧
      (0xffff800000000000 + 0x100000000) / 2097152 <
        0 + ((0x100000000 : Nat) / 2097152 + 1) + (0xffff800000000000 : Nat) / 2097152 := by
    decide
  rw [htr, hpt4, if_pos hc]

/-- C3 witness: the cover characterization at the loader's default
2 MiB-aligned offset with a 2 MiB `max_addr`. -/
theorem C3_phys_memory_cover_witness :
    (∃ pt2, map_physical_memory_x86 0xffff800000000000 0x200000 emptyPT = .ok pt2 ∧
      (∀ v, 0xffff800000000000 ≤ v → v < 0xffff800000000000 + 0x200000 →
        transAddr2M pt2 v = some (v - 0xffff800000000000)) ∧
      (∀ v, 0xffff800000000000 ≤ v →
        v < 0xffff800000000000 + ((0x200000 : Nat) / PS2M + 1) * PS2M →
        transAddr2M pt2 v = some (v - 0xffff800000000000)) ∧
      (∀ v, v < 0xffff800000000000 → transAddr2M pt2 v = none) ∧
      (∀ v, 0xffff800000000000 + ((0x200000 : Nat) / PS2M + 1) * PS2M ≤ v →
        transAddr2M pt2 v = none)) ∧
    (∀ regions r, maxPhysAddr regions = some r → 0x100000000 ≤ r) :=
  C3_phys_memory_cover 0xffff800000000000 0x200000 (by decide)

/-- C4 (amended): the `BootInfo` handoff record of `lib.rs` is, in order,
the memory-map snapshot, the 64-bit physical-memory offset, the graphics
info (mode descriptor, 64-bit framebuffer address and size), the 64-bit
ACPI2 RSDP address, the 64-bit initramfs address and size, and the
command-line string reference — exactly the claimed layout minus its
SMBIOS field. -/
theorem C4_bootinfo_layout :
    bootInfoFields = claimedBootInfoFields.erase ("smbios_addr", FieldTy.u64) ∧
    graphicInfoFields =
      [("mode", FieldTy.modeInfo), ("fb_addr", FieldTy.u64), ("fb_size", FieldTy.u64)] := by
  decide

/-- C4 counterexample: the record declared in `lib.rs` has no SMBIOS field,
so it is not the claimed eight-field layout. -/
theorem C4_no_smbios_field_counterexample :
    bootInfoFields ≠ claimedBootInfoFields ∧
    ("smbios_addr", FieldTy.u64) ∉ bootInfoFields := by
  decide

/-- C5 (amended): a frame source that reports exhaustion (an empty frame
list) makes `map_segment` fail with `FrameAllocationFailed` — an error
value, no partial-success return — and any `map_elf` failure makes the
boot sequence panic ("failed to map ELF") before `exit_boot_services` or
the kernel jump is ever reached. -/
theorem C5_exhaustion_fails_whole_mapping :
    (∀ (seg : Segment) (kernelStart : Nat) (m : Nat → Nat),
      seg.segType = .load → kernelStart % PS = 0 → seg.virtualAddr % PS = 0 →
      seg.offset % PS = 0 → 0 < seg.fileSize → seg.fileSize < seg.memSize →
      seg.fileSize % PS ≠ 0 →
      map_segment seg kernelStart ⟨m, emptyPT⟩ [] = .error .frameAllocationFailed) ∧
    (∀ (inp : BootInputs) (e : MapErr),
      map_elf inp.segments inp.kernelStart inp.initialState inp.alloc = .error e →
      BootEvent.exitBootServices ∉ efi_main inp ∧
      BootEvent.panicked "failed to map ELF" ∈ efi_main inp ∧
      ∀ en, BootEvent.jumpToEntry en ∉ efi_main inp) := by
  constructor
  · exact map_segment_exhausted
  · intro inp e h
    simp only [efi_main, h]
    refine ⟨by simp, by simp, fun en => by simp⟩

/-- C5 witness: a concrete `Load` segment needing the shared-page copy,
mapped with an empty frame source, fails with `FrameAllocationFailed`. -/
theorem C5_exhaustion_witness :
    map_segment ⟨.load, true, false, 0, 0x400000, 0x10, 0x20⟩ 0x10000
      ⟨fun a => a, emptyPT⟩ [] = .error .frameAllocationFailed :=
  C5_exhaustion_fails_whole_mapping.1 ⟨.load, true, false, 0, 0x400000, 0x10, 0x20⟩
    0x10000 (fun a => a) rfl (by decide) (by decide) (by decide) (by decide) (by decide)
    (by decide)

/-- C5 counterexample: `UEFIFrameAllocator::allocate_frame` never reports
firmware exhaustion as a value — it `expect_success`-panics instead of
returning `None`. -/
theorem C5_allocate_frame_panics_counterexample :
    uefi_allocate_frame FwAllocResult.outOfResources = .error "failed to allocate frame" ∧
    uefi_allocate_frame FwAllocResult.outOfResources ≠ .ok none := by
  decide

/-- The configuration text of the C6 claim. -/
def confText : String :=
  "physical_memory_offset=0xffff800000000000\nkernel_path=\\k.elf\nresolution=1920x1080\ncmdline=root=/dev/sda1\n"

/-- The configuration the C6 claim expects: the four explicit fields, the
other fields at their `DEFAULT_CONFIG` values, `initramfs` absent. -/
def confParsed : Config :=
  { kernel_stack_address := 0xFFFFFF0100000000
    kernel_stack_size := 512
    physical_memory_offset := 0xffff800000000000
    kernel_path := "\\k.elf"
    resolution := some (1920, 1080)
    initramfs := none
    cmdline := "root=/dev/sda1" }

/-- C6: the claim's text parses to exactly the four claimed values with
`initramfs` absent and no warning; appending the unknown-key line
`foo=bar` changes no field, produces only a warning and does not abort;
and in general any unrecognized key leaves the configuration untouched,
appending one warning. -/
theorem C6_config_parse :
    Config.parse confText = .ok (confParsed, []) ∧
    Config.parse (confText ++ "foo=bar") =
      .ok (confParsed, ["undefined config key: foo"]) ∧
    (∀ (cfg : Config) (warnings : List String) (key value : List Char),
      key ∉ ["kernel_stack_address".data, "kernel_stack_size".data,
        "physical_memory_offset".data, "kernel_path".data, "resolution".data,
        "initramfs".data, "cmdline".data] →
      Config.process cfg warnings key value =
        .ok (cfg, warnings ++ ["undefined config key: " ++ ⟨key⟩])) := by
  refine ⟨by decide, by decide, ?_⟩
  intro cfg warnings key value hk
  simp only [List.mem_cons, List.not_mem_nil, or_false, not_or] at hk
  obtain ⟨h1, h2, h3, h4, h5, h6, h7⟩ := hk
  simp only [Config.process]
  rw [if_neg h1, if_neg h2, if_neg h3, if_neg h4, if_neg h5, if_neg h6, if_neg h7]

/-- C6 witness: the unknown key `foo` is handled as a warning, not an
abort. -/
theorem C6_config_parse_witness :
    Config.process DEFAULT_CONFIG [] "foo".data "bar".data =
      .ok (DEFAULT_CONFIG, ["undefined config key: foo"]) :=
  C6_config_parse.2.2 DEFAULT_CONFIG [] "foo".data "bar".data (by decide)

/-- C7: once the kernel ELF has been mapped, an error or timeout of
`startup_all_aps` (the expected outcome — `ap_main` never returns, and
`start_aps` calls `expect_error`) is not fatal: the primary processor
still reaches `exit_boot_services` and the terminal kernel jump, with no
panic in the trace. -/
theorem C7_ap_failure_not_fatal (inp : BootInputs) (r : MachineState × List Nat)
    (hElf : map_elf inp.segments inp.kernelStart inp.initialState inp.alloc = .ok r)
    (hAp : inp.apStartupError = true) :
    efi_main inp =
      [BootEvent.setEntry inp.entryPoint, BootEvent.setPmo inp.physicalMemoryOffset,
       BootEvent.mapKernelElf, BootEvent.mapPhysMemory, BootEvent.startAps,
       BootEvent.exitBootServices, BootEvent.jumpToEntry inp.entryPoint] := by
  simp [efi_main, hElf, hAp]

/-- C7 witness: a concrete boot run with an AP-startup timeout reaches the
terminal handoff. -/
theorem C7_ap_failure_witness :
    efi_main ⟨0xdead, 0xffff800000000000, [], 0x10000, ⟨fun _ => 0, emptyPT⟩, [], true⟩ =
      [BootEvent.setEntry 0xdead, BootEvent.setPmo 0xffff800000000000,
       BootEvent.mapKernelElf, BootEvent.mapPhysMemory, BootEvent.startAps,
       BootEvent.exitBootServices, BootEvent.jumpToEntry 0xdead] :=
  C7_ap_failure_not_fatal
    ⟨0xdead, 0xffff800000000000, [], 0x10000, ⟨fun _ => 0, emptyPT⟩, [], true⟩
    (⟨fun _ => 0, emptyPT⟩, []) rfl rfl

/-- C8: in every `efi_main` execution the trace starts with the writes of
`ENTRY` and `PHYSICAL_MEMORY_OFFSET`, those globals are never written
again later (in particular not after `start_aps`), and any `start_aps`
event comes strictly after both writes. -/
theorem C8_startup_context_order (inp : BootInputs) :
    ∃ rest, efi_main inp =
        BootEvent.setEntry inp.entryPoint :: BootEvent.setPmo inp.physicalMemoryOffset :: rest ∧
      (∀ v, BootEvent.setEntry v ∉ rest) ∧
      (∀ v, BootEvent.setPmo v ∉ rest) ∧
      (∀ i, (efi_main inp)[i]? = some BootEvent.startAps → 2 ≤ i) := by
  have main : ∀ rest, efi_main inp =
      BootEvent.setEntry inp.entryPoint :: BootEvent.setPmo inp.physicalMemoryOffset :: rest →
      ∀ i, (efi_main inp)[i]? = some BootEvent.startAps → 2 ≤ i := by
    intro rest htr i hi
    rw [htr] at hi
    match i with
    | 0 => simp at hi
    | 1 => simp at hi
    | i + 2 => omega
  cases hE : map_elf inp.segments inp.kernelStart inp.initialState inp.alloc with
  | error e =>
      have htr : efi_main inp =
          BootEvent.setEntry inp.entryPoint :: BootEvent.setPmo inp.physicalMemoryOffset ::
          [BootEvent.panicked "failed to map ELF"] := by
        simp [efi_main, hE]
      exact ⟨_, htr, fun v => by simp, fun v => by simp, main _ htr⟩
  | ok r =>
      cases hA : inp.apStartupError with
      | false =>
          have htr : efi_main inp =
              BootEvent.setEntry inp.entryPoint :: BootEvent.setPmo inp.physicalMemoryOffset ::
              [BootEvent.mapKernelElf, BootEvent.mapPhysMemory, BootEvent.startAps,
               BootEvent.panicked "failed to startup all application processors"] := by
            simp [efi_main, hE, hA]
          exact ⟨_, htr, fun v => by simp, fun v => by simp, main _ htr⟩
      | true =>
          have htr : efi_main inp =
              BootEvent.setEntry inp.entryPoint :: BootEvent.setPmo inp.physicalMemoryOffset ::
              [BootEvent.mapKernelElf, BootEvent.mapPhysMemory, BootEvent.startAps,
               BootEvent.exitBootServices, BootEvent.jumpToEntry inp.entryPoint] := by
            simp [efi_main, hE, hA]
          exact ⟨_, htr, fun v => by simp, fun v => by simp, main _ htr⟩

/-- C1 (amended): for a `Load` segment with `mem_size > file_size` whose
zero-fill start is not page-aligned (page-aligned image base, offset and
virtual address; fresh frames distinct and disjoint from the image
frames), `map_segment` succeeds, consumes the head frame for the shared
page plus one frame per remaining zero-fill page, remaps the shared page
to the fresh head frame with the segment's flags, and afterwards every
byte at segment-relative offset in `[0, file_size)` reads as the original
image byte at `kernel_start + offset + o` while every byte in
`[file_size, mem_size)` reads as zero.  (In the spec's example the page at
`0x401000` thus holds the original file bytes at offsets
`[0x1000, 0x1800)` — not `[0x800, 0x1000)` — in `[0, 0x800)`, zero in
`[0x800, 0x1000)`, and the page at `0x402000` is zero on `[0, 0x500)`.) -/
theorem C1_zero_fill_shared_page (seg : Segment) (kernelStart : Nat) (m : Nat → Nat)
    (nf : Nat) (rest : List Nat)
    (hty : seg.segType = .load)
    (hka : kernelStart % PS = 0)
    (hva : seg.virtualAddr % PS = 0)
    (hoa : seg.offset % PS = 0)
    (hfs : 0 < seg.fileSize)
    (hms : seg.fileSize < seg.memSize)
    (hun : seg.fileSize % PS ≠ 0)
    (hlen : (seg.virtualAddr + seg.memSize) / PS - (seg.virtualAddr + seg.fileSize) / PS
      ≤ rest.length)
    (hdisj : ∀ f ∈ nf :: rest, (kernelStart + seg.offset + seg.fileSize) / PS < f)
    (hnodup : (nf :: rest).Nodup) :
    ∃ st' alloc',
      map_segment seg kernelStart ⟨m, emptyPT⟩ (nf :: rest) = .ok (st', alloc') ∧
      alloc' = rest.drop
        ((seg.virtualAddr + seg.memSize) / PS - (seg.virtualAddr + seg.fileSize) / PS) ∧
      st'.pt ((seg.virtualAddr + seg.fileSize) / PS) =
        some (nf, trans_flags_x86 seg.isWrite seg.isExecute) ∧
      (∀ o, o < seg.fileSize →
        readVirt st' (seg.virtualAddr + o) = some (m (kernelStart + seg.offset + o))) ∧
      (∀ o, seg.fileSize ≤ o → o < seg.memSize →
        readVirt st' (seg.virtualAddr + o) = some 0) :=
  map_segment_shared_case seg kernelStart m nf rest hty hka hva hoa hfs hms hun hlen
    hdisj hnodup

/-- C1 witness: the spec's example segment (`virtual_addr 0x400000`,
`file_offset 0`, `file_size 0x1800`, `mem_size 0x2500`) mapped over the
identity-content image at `0x10000` with fresh frames `0x100..0x102`. -/
theorem C1_zero_fill_shared_page_witness :
    ∃ st' alloc',
      map_segment ⟨.load, true, false, 0, 0x400000, 0x1800, 0x2500⟩ 0x10000
        ⟨fun a => a, emptyPT⟩ [0x100, 0x101, 0x102] = .ok (st', alloc') ∧
      alloc' = [0x101, 0x102].drop
        (((0x400000 : Nat) + 0x2500) / PS - ((0x400000 : Nat) + 0x1800) / PS) ∧
      st'.pt (((0x400000 : Nat) + 0x1800) / PS) =
        some (0x100, trans_flags_x86 true false) ∧
      (∀ o, o < 0x1800 →
        readVirt st' (0x400000 + o) = some ((fun a => a) (0x10000 + 0 + o))) ∧
      (∀ o, 0x1800 ≤ o → o < 0x2500 → readVirt st' (0x400000 + o) = some 0) :=
  C1_zero_fill_shared_page ⟨.load, true, false, 0, 0x400000, 0x1800, 0x2500⟩ 0x10000
    (fun a => a) 0x100 [0x101, 0x102] rfl (by decide) (by decide) (by decide) (by decide)
    (by decide) (by decide) (by decide) (by decide) (by decide)

/-- C1 counterexample: on the spec's example over the identity-content
image at `0x10000`, the first byte of the page at `0x401000` reads as the
file byte at offset `0x1000` (value `0x11000`), not the file byte at
offset `0x800` (value `0x10800`) the claim names. -/
theorem C1_shared_page_bytes_counterexample :
    ∃ st' alloc',
      map_segment ⟨.load, true, false, 0, 0x400000, 0x1800, 0x2500⟩ 0x10000
        ⟨fun a => a, emptyPT⟩ [0x100, 0x101, 0x102] = .ok (st', alloc') ∧
      readVirt st' 0x401000 = some 0x11000 ∧
      (0x11000 : Nat) ≠ (fun a => a) ((0x10000 : Nat) + 0x800) := by
  obtain ⟨st', alloc', hrun, _, _, hA, _⟩ :=
    map_segment_shared_case ⟨.load, true, false, 0, 0x400000, 0x1800, 0x2500⟩ 0x10000
      (fun a => a) 0x100 [0x101, 0x102] rfl (by decide) (by decide) (by decide)
      (by decide) (by decide) (by decide) (by decide) (by decide) (by decide)
  refine ⟨st', alloc', hrun, ?_, by decide⟩
  have hb := hA 0x1000 (by decide)
  simpa using hb

/-- C9: for a `Load` segment with `mem_size = file_size`, `map_segment`
draws nothing from the frame source (the allocator comes back untouched),
copies nothing (memory is unchanged), and every leaf mapping it installs
targets the image-buffer frame
`(kernel_start + (offset & !0xfff)) / PS + k` at page
`virtual_addr / PS + k`. -/
theorem C9_file_backed_direct_mapping (seg : Segment) (kernelStart : Nat) (m : Nat → Nat)
    (alloc : List Nat)
    (hty : seg.segType = .load)
    (hka : kernelStart % PS = 0)
    (hfs : 0 < seg.fileSize)
    (heq : seg.memSize = seg.fileSize) :
    ∃ st', map_segment seg kernelStart ⟨m, emptyPT⟩ alloc = .ok (st', alloc) ∧
      st'.mem = m ∧
      ∀ p fr fl, st'.pt p = some (fr, fl) →
        ∃ k, k ≤ (seg.fileSize - 1) / PS ∧
          p = seg.virtualAddr / PS + k ∧
          fr = (kernelStart + (seg.offset - seg.offset % PS)) / PS + k ∧
          fl = trans_flags_x86 seg.isWrite seg.isExecute :=
  map_segment_file_backed seg kernelStart m alloc hty hka hfs heq

/-- C9 witness: a purely file-backed segment with an unaligned file offset
(`0x1234`, rounded down to `0x1000`), mapped with a nonempty allocator
that comes back untouched. -/
theorem C9_file_backed_witness :
    ∃ st', map_segment ⟨.load, false, true, 0x1234, 0x400000, 0x1800, 0x1800⟩ 0x10000
        ⟨fun a => a, emptyPT⟩ [0x100] = .ok (st', [0x100]) ∧
      st'.mem = (fun a => a) ∧
      ∀ p fr fl, st'.pt p = some (fr, fl) →
        ∃ k, k ≤ ((0x1800 : Nat) - 1) / PS ∧
          p = (0x400000 : Nat) / PS + k ∧
          fr = ((0x10000 : Nat) + (0x1234 - (0x1234 : Nat) % PS)) / PS + k ∧
          fl = trans_flags_x86 false true :=
  C9_file_backed_direct_mapping ⟨.load, false, true, 0x1234, 0x400000, 0x1800, 0x1800⟩
    0x10000 (fun a => a) [0x100] rfl (by decide) (by decide) (by decide)

/-- C10 (amended): for a `Load` segment with `file_size > 0` *and*
page-aligned virtual address and offset (with a page-aligned image base
and empty initial table), the shared-page unmap can never reach the
`PageNotMapped` / `InvalidFrameAddress` arms marked `unreachable!()`,
whatever the allocator holds, because under those alignment preconditions
the page containing the last file byte really was installed by the
preceding file-backed loop.  `file_size > 0` alone does not suffice (see
the counterexample: with an unaligned offset the loop's `end_frame` is
computed from the rounded-down offset and stops one page short of
`last_page`), though it is still necessary — the concrete `Load` segment
with `file_size = 0`, `mem_size = 0x10` and page-unaligned
`virtual_addr = 0x800` also drives the unmap onto a never-mapped page,
reaching the `unreachable!()` arm (modelled as `panicked`). -/
theorem C10_unreachable_arms :
    (∀ (seg : Segment) (kernelStart : Nat) (m : Nat → Nat) (alloc : List Nat),
      seg.segType = .load → kernelStart % PS = 0 → seg.virtualAddr % PS = 0 →
      seg.offset % PS = 0 → 0 < seg.fileSize →
      map_segment seg kernelStart ⟨m, emptyPT⟩ alloc ≠ .error .panicked) ∧
    map_segment ⟨.load, true, false, 0x800, 0x800, 0, 0x10⟩ 0x10000
      ⟨fun _ => 0, emptyPT⟩ [0x100] = .error .panicked :=
  ⟨map_segment_never_unreachable, rfl⟩

/-- C10 counterexample: `file_size > 0` alone does not keep the
`unreachable!()` arms dead.  For `offset = 0x1234`,
`virtual_addr = 0x401234` (ELF-congruent, both page-unaligned),
`file_size = 0xE00`, `mem_size = 0xF00`, the file-backed loop maps only
page `0x401` (its `end_frame` is computed from the rounded-down offset:
`containing(kernel_start + 0x1000 + 0xDFF)`), while
`last_page = containing(0x402033) = 0x402` was never mapped — the unmap
returns `PageNotMapped` and the `unreachable!()` arm executes. -/
theorem C10_unaligned_panics_counterexample :
    map_segment ⟨.load, true, false, 0x1234, 0x401234, 0xE00, 0xF00⟩ 0x10000
      ⟨fun _ => 0, emptyPT⟩ [0x100, 0x101] = .error .panicked := by
  rfl

/-- C10 witness: a concrete `Load` segment with `file_size > 0` and
page-aligned addresses never panics in `map_segment`, even with an
exhausted allocator. -/
theorem C10_unreachable_arms_witness :
    map_segment ⟨.load, true, false, 0, 0x400000, 0x10, 0x20⟩ 0x10000
      ⟨fun _ => 0, emptyPT⟩ [] ≠ .error .panicked :=
  C10_unreachable_arms.1 ⟨.load, true, false, 0, 0x400000, 0x10, 0x20⟩ 0x10000
    (fun _ => 0) [] rfl (by decide) (by decide) (by decide) (by decide)

end RBoot
